import Mathlib

set_option maxRecDepth 40000

/-!
Shallow embedding of `src/tools/skillc.py` (the ReviewFirst SkillScript POC
compiler).  Lines of the input document are modelled as `List Char`; error
messages are Lean `String`s carrying the exact Python message text.
-/

namespace Skillc

/-- A raw document line (Python `str` without a newline). -/
abbrev Line := List Char

/-- Python whitespace for `str.strip` / regex `\s` restricted to ASCII. -/
def pyIsSpace (c : Char) : Bool :=
  c = ' ' ∨ c = '\t' ∨ c = '\n' ∨ c = '\r' ∨ c = '\x0b' ∨ c = '\x0c'

/-- Drop trailing whitespace (the right half of Python `str.strip`). -/
def trimRight (l : Line) : Line :=
  (l.reverse.dropWhile pyIsSpace).reverse

/-- Python `str.strip()`. -/
def pyStrip (l : Line) : Line :=
  trimRight (l.dropWhile pyIsSpace)

/-- Python `str.startswith(p)`. -/
def pyStartsWith (s p : Line) : Bool :=
  p.isPrefixOf s

/-- Split raw text at newline characters; always ends with the (possibly
empty) final segment. -/
def splitRaw : List Char → List Line
  | [] => [[]]
  | c :: rest =>
    match splitRaw rest with
    | [] => [[]]
    | l :: ls => if c = '\n' then [] :: l :: ls else (c :: l) :: ls

/-- Python `str.splitlines()` for `\n`-terminated text (a trailing newline
does not produce a trailing empty line). -/
def pySplitlines (s : List Char) : List Line :=
  let parts := splitRaw s
  if s.getLast? = some '\n' ∨ s = [] then parts.dropLast else parts

/-! ## Section Splitter (`split_sections`) -/

/-- An insertion-ordered dictionary from section name to its lines,
modelling the Python `dict[str, list[str]]`. -/
abbrev SectionDict := List (List Char × List Line)

/-- `sections[name] = []`: overwrite in place if the key exists, else append
(Python dict assignment semantics). -/
def dictSetEmpty (d : SectionDict) (k : List Char) : SectionDict :=
  match d with
  | [] => [(k, [])]
  | (k2, vs) :: rest =>
    if k2 = k then (k2, []) :: rest else (k2, vs) :: dictSetEmpty rest k

/-- `sections[current].append(raw_line)`. -/
def dictAppend (d : SectionDict) (k : List Char) (v : Line) : SectionDict :=
  match d with
  | [] => []
  | (k2, vs) :: rest =>
    if k2 = k then (k2, vs ++ [v]) :: rest else (k2, vs) :: dictAppend rest k v

/-- `sections.get(name, [])`. -/
def dictGet (d : SectionDict) (k : List Char) : List Line :=
  match d with
  | [] => []
  | (k2, vs) :: rest => if k2 = k then vs else dictGet rest k

/-- `SECTION_PATTERN.match(raw_line.strip())`: since the line is stripped,
the regex `^(public|private|tests):\s*$` matches exactly when the stripped
line is one of the three header literals; the group is the section name. -/
def headerNameOf (l : Line) : Option (List Char) :=
  let s := pyStrip l
  if s = "public:".data then some "public".data
  else if s = "private:".data then some "private".data
  else if s = "tests:".data then some "tests".data
  else none

/-- The scanning loop of `split_sections`: threads the current section,
the section dictionary and the ordering record, failing on a non-blank
line before the first header. -/
def splitLoop : List Line → Option (List Char) → SectionDict → List (List Char) →
    Except String (SectionDict × List (List Char))
  | [], _, sects, ord => .ok (sects, ord)
  | l :: rest, cur, sects, ord =>
    match headerNameOf l with
    | some name => splitLoop rest (some name) (dictSetEmpty sects name) (ord ++ [name])
    | none =>
      match cur with
      | none =>
        if pyStrip l ≠ [] then
          .error "declarations outside of public/private/tests sections"
        else splitLoop rest none sects ord
      | some c => splitLoop rest (some c) (dictAppend sects c l) ord

/-- `split_sections(content)`: scan the lines, then check that the first two
recorded section names are `public`, `private`, then reject duplicates. -/
def split_sections (content : List Char) : Except String SectionDict :=
  match splitLoop (pySplitlines content) none [] [] with
  | .error e => .error e
  | .ok (sects, ord) =>
    if ord.take 2 ≠ ["public".data, "private".data] then
      .error "top-level sections must begin with public: then private:"
    else if ord.length ≠ ord.dedup.length then
      .error "duplicate top-level sections are not allowed"
    else .ok sects

/-! ## Public-Block Validator and Step Extractor (`extract_program`) -/

/-- The recognized doc-header vocabulary `DOC_HEADER_KEYS` (a Python set;
only membership and set difference are used). -/
def DOC_HEADER_KEYS : List (List Char) :=
  ["intent".data, "inputs".data, "errors".data, "effects".data,
   "requires".data, "ensures".data]

/-- Regex `[A-Z]` (ASCII uppercase). -/
def isUpperAscii (c : Char) : Bool :=
  'A'.toNat ≤ c.toNat ∧ c.toNat ≤ 'Z'.toNat

/-- Regex `[A-Za-z0-9]` (ASCII alphanumeric). -/
def isAlnumAscii (c : Char) : Bool :=
  ('A'.toNat ≤ c.toNat ∧ c.toNat ≤ 'Z'.toNat) ∨
  ('a'.toNat ≤ c.toNat ∧ c.toNat ≤ 'z'.toNat) ∨
  ('0'.toNat ≤ c.toNat ∧ c.toNat ≤ '9'.toNat)

/-- Drop `p` from the front of `s` when it is a prefix (helper for literal
regex pieces). -/
def dropPrefixOpt (s p : List Char) : Option (List Char) :=
  match p, s with
  | [], s => some s
  | _ :: _, [] => none
  | a :: ps, b :: ss => if a = b then dropPrefixOpt ss ps else none

/-- Attempt the pattern `pub skill\s+([A-Z][A-Za-z0-9]*)` anchored at the
head of `s`: the literal, then a nonempty maximal whitespace run, then an
uppercase letter and the maximal alphanumeric run after it (the group). -/
def matchPubSkillAt (s : List Char) : Option (List Char) :=
  match dropPrefixOpt s "pub skill".data with
  | none => none
  | some t =>
    let ws := t.takeWhile pyIsSpace
    if ws = [] then none
    else
      match t.dropWhile pyIsSpace with
      | [] => none
      | c :: cs => if isUpperAscii c then some (c :: cs.takeWhile isAlnumAscii) else none

/-- `re.search(r"pub skill\s+([A-Z][A-Za-z0-9]*)", s)`: try the anchored
match at every position, leftmost first; return the captured group. -/
def searchPubSkill : List Char → Option (List Char)
  | [] => none
  | s@(_ :: rest) =>
    match matchPubSkillAt s with
    | some name => some name
    | none => searchPubSkill rest

/-- The doc-header key recorded for a line, if any: the line's stripped form
must start with `///`; after removing the marker and stripping, a colon must
be present; the key is the trimmed text before the first colon and must be
in the recognized vocabulary. -/
def lineHeaderKey (l : Line) : Option (List Char) :=
  let s := pyStrip l
  if pyStartsWith s "///".data then
    let cleaned := pyStrip (s.drop 3)
    if cleaned.contains ':' then
      let key := pyStrip (cleaned.takeWhile (fun c => ¬ c = ':'))
      if key ∈ DOC_HEADER_KEYS then some key else none
    else none
  else none

/-- `doc_headers.add(key)` for the key (if any) recorded for the line;
the Python set is modelled as a duplicate-free insertion list. -/
def addHeader (l : Line) (hs : List (List Char)) : List (List Char) :=
  match lineHeaderKey l with
  | some k => if k ∈ hs then hs else hs ++ [k]
  | none => hs

/-- Fold `addHeader` over a list of lines starting from `hs`. -/
def collectFrom (hs : List (List Char)) (ls : List Line) : List (List Char) :=
  ls.foldl (fun h l => addHeader l h) hs

/-- The doc-header keys recorded for a list of lines. -/
def collectHeaders (ls : List Line) : List (List Char) :=
  collectFrom [] ls

/-- The scanning loop over the public section's lines: record doc headers
until the first `pub skill` line, which ends the scan with the header set,
its index and the matched skill name (or fails on a malformed name);
`none` when no declaration line is found. -/
def scanPublic : List Line → List (List Char) → Nat →
    Except String (Option (List (List Char) × Nat × List Char))
  | [], _, _ => .ok none
  | l :: rest, hs, idx =>
    let s := pyStrip l
    if pyStartsWith s "///".data then
      scanPublic rest (addHeader l hs) (idx + 1)
    else if pyStartsWith s "pub skill".data then
      match searchPubSkill s with
      | none => .error "exported skill name must be PascalCase"
      | some nm => .ok (some (hs, idx, nm))
    else
      scanPublic rest hs (idx + 1)

/-- Lexicographic (code-point) comparison of strings, Python `<=` on `str`
as used by `sorted`. -/
def lexLe : List Char → List Char → Bool
  | [], _ => true
  | _ :: _, [] => false
  | a :: as, b :: bs =>
    if a.toNat < b.toNat then true
    else if b.toNat < a.toNat then false
    else lexLe as bs

/-- Insert into a `lexLe`-sorted list. -/
def insertSorted (k : List Char) : List (List Char) → List (List Char)
  | [] => [k]
  | x :: xs => if lexLe k x then k :: x :: xs else x :: insertSorted k xs

/-- Insertion sort by `lexLe` (Python `sorted` on strings). -/
def sortKeys : List (List Char) → List (List Char)
  | [] => []
  | x :: xs => insertSorted x (sortKeys xs)

/-- `sorted(DOC_HEADER_KEYS - doc_headers)`. -/
def missingHeaders (hs : List (List Char)) : List (List Char) :=
  sortKeys (DOC_HEADER_KEYS.filter (fun k => ¬ k ∈ hs))

/-- `", ".join(keys)` rendered as a Lean `String`. -/
def joinKeys (ks : List (List Char)) : String :=
  String.intercalate ", " (ks.map (fun k => String.mk k))

/-- The validated output of the core pipeline. -/
structure SkillProgram where
  skill_name : List Char
  lines_to_print : List (List Char)
  deriving Repr, DecidableEq

/-- `re.search(r"\((.*)\)\s*$", stmt)`: the match exists exactly when, after
dropping trailing whitespace, the last character is `)` and an earlier `(`
exists; the greedy group is everything strictly between the first `(` and
that final `)`. -/
def afterFirstParen : List Char → Option (List Char)
  | [] => none
  | c :: rest => if c = '(' then some rest else afterFirstParen rest

/-- The captured group of `re.search(r"\((.*)\)\s*$", stmt)`, if any. -/
def findParenArg (s : List Char) : Option (List Char) :=
  let t := trimRight s
  match t.getLast? with
  | some ')' => afterFirstParen t.dropLast
  | _ => none

/-- Python `raw_value[1:-1]`. -/
def stripEnds (raw : List Char) : List Char :=
  (raw.drop 1).dropLast

/-- The statement loop over the lines of the steps block: skip blank lines,
collect `do console.println("...")` literals, stop at `return`, fail on
anything else. -/
def stepLoop : List Line → Except String (List (List Char))
  | [] => .ok []
  | line :: rest =>
    let stmt := pyStrip line
    if stmt = [] then stepLoop rest
    else if pyStartsWith stmt "do console.println".data then
      match findParenArg stmt with
      | none => .error "invalid do console.println syntax"
      | some inner =>
        let raw := pyStrip inner
        if raw.head? = some '"' ∧ raw.getLast? = some '"' then
          (stepLoop rest).map (fun ls => stripEnds raw :: ls)
        else .error "console.println only supports string literals in POC"
    else if pyStartsWith stmt "return".data then .ok []
    else .error ("unsupported statement in steps block: " ++ String.mk stmt)

/-- Find the first index `j ≥ i` whose line strips to `steps:`; return
`j + 1` (the start of the steps block). -/
def findStepsFrom : List Line → Nat → Option Nat
  | [], _ => none
  | l :: rest, j =>
    if pyStrip l = "steps:".data then some (j + 1) else findStepsFrom rest (j + 1)

/-- The body of `extract_program` applied to the public section's lines:
scan for doc headers and the declaration, check the missing-header set,
locate the `steps:` marker, and run the statement loop. -/
def extractFromPublic (publicLines : List Line) : Except String SkillProgram :=
  match scanPublic publicLines [] 0 with
  | .error e => .error e
  | .ok none => .error "public section must include a pub skill"
  | .ok (some (hs, skillIdx, nm)) =>
    if ¬ missingHeaders hs = [] then
      .error ("missing required doc headers: " ++ joinKeys (missingHeaders hs))
    else
      match findStepsFrom (publicLines.drop (skillIdx + 1)) (skillIdx + 1) with
      | none => .error "pub skill must include a steps: block"
      | some start =>
        match stepLoop (publicLines.drop start) with
        | .error e => .error e
        | .ok [] => .error "steps block must include at least one do console.println statement"
        | .ok prints => .ok ⟨nm, prints⟩

/-- `extract_program` on the document text (file reading is the IO
boundary and is not modelled). -/
def extract_program (text : List Char) : Except String SkillProgram :=
  match split_sections text with
  | .error e => .error e
  | .ok sections => extractFromPublic (dictGet sections "public".data)

/-! ## Emitter (`generate_c`) -/

/-- Python `str.replace(c, repl)` for a single-character pattern. -/
def replaceChar (c : Char) (repl : List Char) : List Char → List Char
  | [] => []
  | x :: xs => (if x = c then repl else [x]) ++ replaceChar c repl xs

/-- `line.replace('\\', '\\\\').replace('"', '\\"')`: escape backslashes
first, then double quotes. -/
def escapeC (l : List Char) : List Char :=
  replaceChar '"' ['\\', '"'] (replaceChar '\\' ['\\', '\\'] l)

/-- C string-literal unescaping: a backslash makes the following character
literal.  Used as the meaning of an emitted `puts` argument. -/
def unescapeC : List Char → List Char
  | [] => []
  | [c] => [c]
  | c :: d :: rest =>
    if c = '\\' then d :: unescapeC rest else c :: unescapeC (d :: rest)

/-- One emitted call: `    puts("<escaped>");`. -/
def putsCall (escaped : List Char) : List Char :=
  "    puts(\"".data ++ escaped ++ "\");".data

/-- `"\n".join(...)`. -/
def joinNl : List (List Char) → List Char
  | [] => []
  | [l] => l
  | l :: rest => l ++ '\n' :: joinNl rest

/-- The fixed text before the print calls in the generated C file. -/
def cHeader : List Char :=
  "#include <stdio.h>\n\nint main(void) \x7b\n".data

/-- The fixed text after the print calls in the generated C file. -/
def cFooter : List Char :=
  "\n    return 0;\n\x7d\n".data

/-- `generate_c`: the full generated C source text (file writing is the IO
boundary and is not modelled). -/
def generate_c (program : SkillProgram) : List Char :=
  let escaped_lines := program.lines_to_print.map escapeC
  let print_calls := joinNl (escaped_lines.map putsCall)
  cHeader ++ print_calls ++ cFooter

/-- The modelled runtime output of the generated program: each `puts`
argument, read back as a C string literal, is written as one line. -/
def modelRunC (program : SkillProgram) : List (List Char) :=
  (program.lines_to_print.map escapeC).map unescapeC

/-- A steps-block line the loop walks through without stopping: blank, or a
`do console.println` with a well-formed double-quoted string argument. -/
def stepOk (l : Line) : Prop :=
  pyStrip l = [] ∨
  (pyStartsWith (pyStrip l) "do console.println".data = true ∧
   ∃ inner, findParenArg (pyStrip l) = some inner ∧
     (pyStrip inner).head? = some '"' ∧ (pyStrip inner).getLast? = some '"')

end Skillc

namespace Skillc

/-! ## Helper lemmas -/

theorem pyStartsWith_nil_false (a : Char) (p : List Char) :
    pyStartsWith [] (a :: p) = false := rfl

theorem ne_nil_of_pyStartsWith {s : List Char} {a : Char} {p : List Char}
    (h : pyStartsWith s (a :: p) = true) : ¬ s = [] := by
  intro hs
  rw [hs, pyStartsWith_nil_false] at h
  exact Bool.false_ne_true h

theorem head_of_pyStartsWith {s : List Char} {a : Char} {p : List Char}
    (h : pyStartsWith s (a :: p) = true) : s.head? = some a := by
  cases s with
  | nil => exact absurd h (by simp [pyStartsWith, List.isPrefixOf])
  | cons b bs =>
    have : (a == b) = true := by
      by_contra hab
      simp only [pyStartsWith, List.isPrefixOf, Bool.and_eq_true] at h
      exact hab h.1
    have hab : a = b := by simpa using this
    simp [hab]

theorem return_not_println {s : List Char}
    (h : pyStartsWith s "return".data = true) :
    pyStartsWith s "do console.println".data = false := by
  by_contra hd
  have hd' : pyStartsWith s "do console.println".data = true := by
    simpa using hd
  have h1 := head_of_pyStartsWith (s := s) (a := 'r') (p := "eturn".data) h
  have h2 := head_of_pyStartsWith (s := s) (a := 'd') (p := "o console.println".data) hd'
  rw [h1] at h2
  exact absurd (Option.some.inj h2) (by decide)

theorem pubskill_not_doccomment {s : List Char}
    (h : pyStartsWith s "pub skill".data = true) :
    pyStartsWith s "///".data = false := by
  by_contra hd
  have hd' : pyStartsWith s "///".data = true := by simpa using hd
  have h1 := head_of_pyStartsWith (s := s) (a := 'p') (p := "ub skill".data) h
  have h2 := head_of_pyStartsWith (s := s) (a := '/') (p := "//".data) hd'
  rw [h1] at h2
  exact absurd (Option.some.inj h2) (by decide)

theorem addHeader_of_not_doccomment {l : Line}
    (h : pyStartsWith (pyStrip l) "///".data = false) (hs : List (List Char)) :
    addHeader l hs = hs := by
  simp [addHeader, lineHeaderKey, h]

theorem lexLe_total (a b : List Char) : lexLe a b = true ∨ lexLe b a = true := by
  induction a generalizing b with
  | nil => left; rfl
  | cons x xs ih =>
    cases b with
    | nil => right; rfl
    | cons y ys =>
      by_cases hxy : x.toNat < y.toNat
      · left; simp [lexLe, hxy]
      · by_cases hyx : y.toNat < x.toNat
        · right; simp [lexLe, hyx]
        · rcases ih ys with h | h
          · left; simp [lexLe, hxy, hyx, h]
          · right; simp [lexLe, hyx, hxy, h]

theorem lexLe_trans {a b c : List Char}
    (hab : lexLe a b = true) (hbc : lexLe b c = true) : lexLe a c = true := by
  induction a generalizing b c with
  | nil => rfl
  | cons x xs ih =>
    cases b with
    | nil => exact absurd hab (by simp [lexLe])
    | cons y ys =>
      cases c with
      | nil => exact absurd hbc (by simp [lexLe])
      | cons z zs =>
        simp only [lexLe] at hab hbc ⊢
        by_cases hxy : x.toNat < y.toNat
        · by_cases hyz : y.toNat < z.toNat
          · simp [Nat.lt_trans hxy hyz]
          · by_cases hzy : z.toNat < y.toNat
            · simp only [hyz, if_false, if_true, hzy] at hbc
              exact absurd hbc Bool.false_ne_true
            · have hyz' : y.toNat = z.toNat := Nat.le_antisymm
                (Nat.le_of_not_lt hzy) (Nat.le_of_not_lt hyz)
              simp [hyz' ▸ hxy]
        · by_cases hyx : y.toNat < x.toNat
          · simp only [hxy, if_false, hyx, if_true] at hab
            exact absurd hab Bool.false_ne_true
          · have hxy' : x.toNat = y.toNat := Nat.le_antisymm
              (Nat.le_of_not_lt hyx) (Nat.le_of_not_lt hxy)
            simp only [hxy, hyx, if_false] at hab
            by_cases hyz : y.toNat < z.toNat
            · simp [hxy' ▸ hyz]
            · by_cases hzy : z.toNat < y.toNat
              · simp only [hyz, hzy, if_false, if_true] at hbc
                exact absurd hbc Bool.false_ne_true
              · simp only [hyz, hzy, if_false] at hbc
                simp only [hxy' ▸ hyz, hxy' ▸ hzy, if_false]
                exact ih hab hbc

theorem mem_insertSorted (a k : List Char) (l : List (List Char)) :
    a ∈ insertSorted k l ↔ a = k ∨ a ∈ l := by
  induction l with
  | nil => simp [insertSorted]
  | cons x xs ih =>
    by_cases h : lexLe k x = true
    · rw [insertSorted, if_pos h]
      simp
    · rw [insertSorted, if_neg h]
      simp only [List.mem_cons, ih]
      tauto

theorem mem_sortKeys (a : List Char) (l : List (List Char)) :
    a ∈ sortKeys l ↔ a ∈ l := by
  induction l with
  | nil => simp [sortKeys]
  | cons x xs ih => simp [sortKeys, mem_insertSorted, ih]

theorem pairwise_insertSorted (k : List Char) (l : List (List Char))
    (h : l.Pairwise (fun a b => lexLe a b = true)) :
    (insertSorted k l).Pairwise (fun a b => lexLe a b = true) := by
  induction l with
  | nil => simp [insertSorted]
  | cons x xs ih =>
    rcases List.pairwise_cons.mp h with ⟨hx, hxs⟩
    by_cases hk : lexLe k x = true
    · rw [insertSorted, if_pos hk]
      refine List.pairwise_cons.mpr ⟨?_, h⟩
      intro b hb
      rcases List.mem_cons.mp hb with rfl | hb
      · exact hk
      · exact lexLe_trans hk (hx b hb)
    · rw [insertSorted, if_neg hk]
      refine List.pairwise_cons.mpr ⟨?_, ih hxs⟩
      intro b hb
      rcases (mem_insertSorted b k xs).mp hb with rfl | hb
      · rcases lexLe_total b x with hbx | hxb
        · exact absurd hbx hk
        · exact hxb
      · exact hx b hb

theorem sortKeys_pairwise (l : List (List Char)) :
    (sortKeys l).Pairwise (fun a b => lexLe a b = true) := by
  induction l with
  | nil => simp [sortKeys]
  | cons x xs ih => exact pairwise_insertSorted x (sortKeys xs) ih

theorem mem_missingHeaders (k : List Char) (hs : List (List Char)) :
    k ∈ missingHeaders hs ↔ (k ∈ DOC_HEADER_KEYS ∧ ¬ k ∈ hs) := by
  rw [missingHeaders, mem_sortKeys, List.mem_filter]
  simp

theorem missingHeaders_pairwise (hs : List (List Char)) :
    (missingHeaders hs).Pairwise (fun a b => lexLe a b = true) :=
  sortKeys_pairwise _

theorem collectFrom_cons (hs : List (List Char)) (l : Line) (ls : List Line) :
    collectFrom hs (l :: ls) = collectFrom (addHeader l hs) ls := rfl

theorem scanPublic_found_ge {ls : List Line} {hs0 hs : List (List Char)}
    {i idx : Nat} {nm : List Char}
    (h : scanPublic ls hs0 i = .ok (some (hs, idx, nm))) : i ≤ idx := by
  induction ls generalizing hs0 i with
  | nil => exact absurd h (by simp [scanPublic])
  | cons l rest ih =>
    rw [scanPublic] at h
    by_cases h1 : pyStartsWith (pyStrip l) "///".data = true
    · rw [if_pos h1] at h
      exact Nat.le_of_succ_le (ih h)
    · rw [if_neg h1] at h
      by_cases h2 : pyStartsWith (pyStrip l) "pub skill".data = true
      · rw [if_pos h2] at h
        cases h3 : searchPubSkill (pyStrip l) with
        | none => rw [h3] at h; exact absurd h (by simp)
        | some nm2 =>
          rw [h3] at h
          have := Except.ok.inj h
          have h4 : i = idx := congrArg (fun t => t.2.1) (Option.some.inj this)
          omega
      · rw [if_neg h2] at h
        exact Nat.le_of_succ_le (ih h)

theorem scanPublic_found_headers {ls : List Line} {hs0 hs : List (List Char)}
    {i idx : Nat} {nm : List Char}
    (h : scanPublic ls hs0 i = .ok (some (hs, idx, nm))) :
    hs = collectFrom hs0 (ls.take (idx - i)) := by
  induction ls generalizing hs0 i with
  | nil => exact absurd h (by simp [scanPublic])
  | cons l rest ih =>
    rw [scanPublic] at h
    by_cases h1 : pyStartsWith (pyStrip l) "///".data = true
    · rw [if_pos h1] at h
      have hge := scanPublic_found_ge h
      have harith : idx - i = (idx - (i + 1)) + 1 := by omega
      rw [harith, List.take_succ_cons, collectFrom_cons]
      exact ih h
    · rw [if_neg h1] at h
      by_cases h2 : pyStartsWith (pyStrip l) "pub skill".data = true
      · rw [if_pos h2] at h
        cases h3 : searchPubSkill (pyStrip l) with
        | none => rw [h3] at h; exact absurd h (by simp)
        | some nm2 =>
          rw [h3] at h
          have h4 := Option.some.inj (Except.ok.inj h)
          have hhs : hs0 = hs := congrArg (fun t => t.1) h4
          have hidx : i = idx := congrArg (fun t => t.2.1) h4
          rw [← hhs, ← hidx, Nat.sub_self, List.take_zero]
          rfl
      · rw [if_neg h2] at h
        have hge := scanPublic_found_ge h
        have harith : idx - i = (idx - (i + 1)) + 1 := by omega
        rw [harith, List.take_succ_cons, collectFrom_cons,
          addHeader_of_not_doccomment (by simpa using h1)]
        exact ih h

theorem scanPublic_append_no_decl (pre : List Line)
    (h : ∀ p ∈ pre, pyStartsWith (pyStrip p) "pub skill".data = false) :
    ∀ (ls : List Line) (hs : List (List Char)) (i : Nat),
      scanPublic (pre ++ ls) hs i = scanPublic ls (collectFrom hs pre) (i + pre.length) := by
  induction pre with
  | nil => intro ls hs i; simp [collectFrom]
  | cons x pre ih =>
    intro ls hs i
    have hx : pyStartsWith (pyStrip x) "pub skill".data = false := h x (by simp)
    have hpre : ∀ p ∈ pre, pyStartsWith (pyStrip p) "pub skill".data = false :=
      fun p hp => h p (by simp [hp])
    rw [List.cons_append, scanPublic]
    by_cases h1 : pyStartsWith (pyStrip x) "///".data = true
    · rw [if_pos h1, ih hpre, collectFrom_cons]
      congr 1
      simp [List.length_cons]
      omega
    · rw [if_neg h1, if_neg (by simp [hx]), ih hpre, collectFrom_cons,
        addHeader_of_not_doccomment (by simpa using h1)]
      congr 1
      simp [List.length_cons]
      omega

theorem stepLoop_append_ok (pre : List Line) (hpre : ∀ l ∈ pre, stepOk l)
    (tail : List Line) :
    ∃ lits, stepLoop (pre ++ tail) = (stepLoop tail).map (fun xs => lits ++ xs) := by
  induction pre with
  | nil =>
    refine ⟨[], ?_⟩
    cases h : stepLoop tail <;> simp [Except.map, h]
  | cons x pre ih =>
    have hx : stepOk x := hpre x (by simp)
    have hpre' : ∀ l ∈ pre, stepOk l := fun l hl => hpre l (by simp [hl])
    obtain ⟨lits, hlits⟩ := ih hpre'
    rcases hx with hblank | ⟨hpl, inner, hinner, hq1, hq2⟩
    · refine ⟨lits, ?_⟩
      rw [List.cons_append, stepLoop, if_pos hblank]
      exact hlits
    · refine ⟨stripEnds (pyStrip inner) :: lits, ?_⟩
      have hne : ¬ pyStrip x = [] := ne_nil_of_pyStartsWith hpl
      rw [List.cons_append, stepLoop, if_neg hne, if_pos hpl, hinner]
      show (if (pyStrip inner).head? = some '"' ∧ (pyStrip inner).getLast? = some '"' then
          (stepLoop (pre ++ tail)).map (fun ls => stripEnds (pyStrip inner) :: ls)
        else Except.error "console.println only supports string literals in POC") = _
      rw [if_pos ⟨hq1, hq2⟩, hlits]
      cases stepLoop tail <;> simp [Except.map]

theorem stepLoop_return_trunc (ret : Line)
    (h : pyStartsWith (pyStrip ret) "return".data = true) :
    ∀ (pre p q : List Line), stepLoop (pre ++ ret :: p) = stepLoop (pre ++ ret :: q) := by
  intro pre
  induction pre with
  | nil =>
    intro p q
    have hne : ¬ pyStrip ret = [] := ne_nil_of_pyStartsWith h
    have hnp : pyStartsWith (pyStrip ret) "do console.println".data = false :=
      return_not_println h
    simp only [List.nil_append, stepLoop, if_neg hne, hnp, Bool.false_eq_true, if_false,
      h, if_true]
  | cons x pre ih =>
    intro p q
    simp only [List.cons_append, stepLoop]
    by_cases h1 : pyStrip x = []
    · simp only [if_pos h1]
      exact ih p q
    · simp only [if_neg h1]
      by_cases h2 : pyStartsWith (pyStrip x) "do console.println".data = true
      · simp only [if_pos h2]
        cases h3 : findParenArg (pyStrip x) with
        | none => rfl
        | some inner =>
          simp only
          by_cases h4 : (pyStrip inner).head? = some '"' ∧ (pyStrip inner).getLast? = some '"'
          · simp only [if_pos h4]
            exact congrArg (Except.map fun ls => stripEnds (pyStrip inner) :: ls) (ih p q)
          · simp only [if_neg h4]
      · simp only [if_neg h2]

theorem dropPrefixOpt_append (p t : List Char) :
    dropPrefixOpt (p ++ t) p = some t := by
  induction p with
  | nil => simp [dropPrefixOpt]
  | cons a ps ih => simp [dropPrefixOpt, ih]

theorem takeWhile_all {p : Char → Bool} (cs : List Char)
    (h : ∀ a ∈ cs, p a = true) : cs.takeWhile p = cs := by
  induction cs with
  | nil => rfl
  | cons a as ih =>
    rw [List.takeWhile_cons, h a (by simp)]
    simp [ih fun a ha => h a (by simp [ha])]

theorem takeWhile_frontier {p : Char → Bool} (ws : List Char) (c : Char)
    (u : List Char) (hws : ∀ w ∈ ws, p w = true) (hc : p c = false) :
    (ws ++ c :: u).takeWhile p = ws ∧ (ws ++ c :: u).dropWhile p = c :: u := by
  induction ws with
  | nil => simp [List.takeWhile_cons, List.dropWhile_cons, hc]
  | cons w wsr ih =>
    have hw : p w = true := hws w (by simp)
    have ih2 := ih fun a ha => hws a (by simp [ha])
    simp [List.takeWhile_cons, List.dropWhile_cons, hw, ih2.1, ih2.2]

theorem replaceChar_cons (c : Char) (repl : List Char) (x : Char) (xs : List Char) :
    replaceChar c repl (x :: xs) =
      (if x = c then repl else [x]) ++ replaceChar c repl xs := rfl

theorem replaceChar_append (c : Char) (repl : List Char) (a b : List Char) :
    replaceChar c repl (a ++ b) = replaceChar c repl a ++ replaceChar c repl b := by
  induction a with
  | nil => rfl
  | cons x xs ih => simp [replaceChar_cons, ih]

theorem escapeC_cons_backslash (l : List Char) :
    escapeC ('\\' :: l) = '\\' :: '\\' :: escapeC l := by
  rw [escapeC, replaceChar_cons, if_pos rfl,
    show ('\\' :: '\\' :: [] : List Char) ++ replaceChar '\\' ['\\', '\\'] l =
      '\\' :: '\\' :: replaceChar '\\' ['\\', '\\'] l from rfl]
  rw [show ('\\' :: '\\' :: replaceChar '\\' ['\\', '\\'] l : List Char) =
    ['\\', '\\'] ++ replaceChar '\\' ['\\', '\\'] l from rfl, replaceChar_append]
  rfl

theorem escapeC_cons_quote (l : List Char) :
    escapeC ('"' :: l) = '\\' :: '"' :: escapeC l := by
  rw [escapeC, replaceChar_cons, if_neg (by decide),
    show (['"'] : List Char) ++ replaceChar '\\' ['\\', '\\'] l =
      ['"'] ++ replaceChar '\\' ['\\', '\\'] l from rfl, replaceChar_append]
  rfl

theorem escapeC_cons_other (c : Char) (l : List Char)
    (h1 : ¬ c = '\\') (h2 : ¬ c = '"') :
    escapeC (c :: l) = c :: escapeC l := by
  rw [escapeC, replaceChar_cons, if_neg h1,
    show ([c] : List Char) ++ replaceChar '\\' ['\\', '\\'] l =
      [c] ++ replaceChar '\\' ['\\', '\\'] l from rfl, replaceChar_append,
    show replaceChar '"' ['\\', '"'] [c] ++
        replaceChar '"' ['\\', '"'] (replaceChar '\\' ['\\', '\\'] l) =
      ((if c = '"' then ['\\', '"'] else [c]) ++ []) ++ escapeC l from rfl,
    if_neg h2]
  rfl

theorem unescapeC_cons_backslash (c : Char) (rest : List Char) :
    unescapeC ('\\' :: c :: rest) = c :: unescapeC rest := by
  rw [unescapeC, if_pos rfl]

theorem unescapeC_cons_other (c : Char) (rest : List Char) (h : ¬ c = '\\') :
    unescapeC (c :: rest) = c :: unescapeC rest := by
  cases rest with
  | nil => rfl
  | cons d ds => rw [unescapeC, if_neg h]

theorem unescapeC_escapeC (l : List Char) : unescapeC (escapeC l) = l := by
  induction l with
  | nil => rfl
  | cons c cs ih =>
    by_cases h1 : c = '\\'
    · subst h1
      rw [escapeC_cons_backslash, unescapeC_cons_backslash, ih]
    · by_cases h2 : c = '"'
      · subst h2
        rw [escapeC_cons_quote, unescapeC_cons_backslash, ih]
      · rw [escapeC_cons_other c cs h1 h2, unescapeC_cons_other c _ h1, ih]

theorem upper_not_space {c : Char} (h : isUpperAscii c = true) : pyIsSpace c = false := by
  simp only [pyIsSpace, decide_eq_false_iff_not]
  rintro (rfl | rfl | rfl | rfl | rfl | rfl) <;> exact absurd h (by decide)

/-! ## Claims -/

/-- Claim C1, counterexample: the document `public:\npublic:\nprivate:\n`
repeats the `public` section header, yet `split_sections` reports the
first-two-names structural error, not the duplicate-sections error — so the
splitter does not fail at the duplicate header, and the duplicate error does
not take precedence over the end-of-scan order check. -/
theorem claim_C1_counterexample :
    split_sections "public:\npublic:\nprivate:\n".data =
      .error "top-level sections must begin with public: then private:" ∧
    ¬ split_sections "public:\npublic:\nprivate:\n".data =
      .error "duplicate top-level sections are not allowed" := by
  constructor
  · rfl
  · intro h
    rw [show split_sections "public:\npublic:\nprivate:\n".data =
      .error "top-level sections must begin with public: then private:" from rfl] at h
    injection h with h2
    exact absurd h2 (by decide)

/-- Claim C1 (amended): duplicate section names are detected only after the
scan completes, and the first-two-names check runs first.  For every document
whose scan completes with a repeated name in the ordering record,
`split_sections` fails; the error is the duplicate-sections error exactly
when the first two recorded names are `public`, `private`. -/
theorem claim_C1 (content : List Char) (sects : SectionDict) (ord : List (List Char))
    (hscan : splitLoop (pySplitlines content) none [] [] = .ok (sects, ord))
    (hdup : ¬ ord.Nodup) :
    (∃ e, split_sections content = .error e) ∧
    (ord.take 2 = ["public".data, "private".data] →
      split_sections content = .error "duplicate top-level sections are not allowed") := by
  have hlen : ord.length ≠ ord.dedup.length := by
    intro hl
    have hsub : ord.dedup.Sublist ord := List.dedup_sublist ord
    exact hdup (List.dedup_eq_self.mp (hsub.eq_of_length hl.symm))
  by_cases hord : ord.take 2 = ["public".data, "private".data]
  · have hres : split_sections content =
        .error "duplicate top-level sections are not allowed" := by
      simp only [split_sections, hscan]
      rw [if_neg (not_not_intro hord), if_pos hlen]
    exact ⟨⟨_, hres⟩, fun _ => hres⟩
  · have hres : split_sections content =
        .error "top-level sections must begin with public: then private:" := by
      simp only [split_sections, hscan]
      rw [if_pos hord]
    exact ⟨⟨_, hres⟩, fun h2 => absurd h2 hord⟩

/-- Claim C1, witness for the amended statement: a repeated `private` header
after a correct `public`, `private` start is reported with the
duplicate-sections error. -/
theorem claim_C1_witness :
    split_sections "public:\nprivate:\nprivate:\n".data =
      .error "duplicate top-level sections are not allowed" :=
  (claim_C1 "public:\nprivate:\nprivate:\n".data
    [("public".data, []), ("private".data, [])]
    ["public".data, "private".data, "private".data] rfl (by decide)).2 (by decide)

/-- Claim C2: for every document whose scan completes with an ordering
record that does not begin with exactly `public` then `private`,
`split_sections` fails with the structural section-order error. -/
theorem claim_C2 (content : List Char) (sects : SectionDict) (ord : List (List Char))
    (hscan : splitLoop (pySplitlines content) none [] [] = .ok (sects, ord))
    (hord : ¬ ord.take 2 = ["public".data, "private".data]) :
    split_sections content =
      .error "top-level sections must begin with public: then private:" := by
  simp only [split_sections, hscan]
  rw [if_pos hord]

/-- Claim C2, witness: an empty document scans to an ordering record of
length 0 and fails the first-two-names check. -/
theorem claim_C2_witness :
    splitLoop (pySplitlines []) none [] [] = .ok ([], []) ∧
    split_sections [] =
      .error "top-level sections must begin with public: then private:" :=
  ⟨rfl, claim_C2 [] [] [] rfl (by decide)⟩

/-- Claim C3: when the public-section scan finds a well-formed declaration
line but the recorded header set misses at least one required key,
validation fails with a message naming exactly the missing keys in
lexicographically sorted order, and the recorded set is exactly the keys of
recognized `///key: value` lines strictly before the declaration line. -/
theorem claim_C3 (publicLines : List Line) (hs : List (List Char)) (idx : Nat)
    (nm : List Char)
    (hscan : scanPublic publicLines [] 0 = .ok (some (hs, idx, nm)))
    (hmiss : ¬ missingHeaders hs = []) :
    extractFromPublic publicLines =
      .error ("missing required doc headers: " ++ joinKeys (missingHeaders hs)) ∧
    (∀ k, k ∈ missingHeaders hs ↔ (k ∈ DOC_HEADER_KEYS ∧ ¬ k ∈ hs)) ∧
    (missingHeaders hs).Pairwise (fun a b => lexLe a b = true) ∧
    hs = collectHeaders (publicLines.take idx) := by
  refine ⟨?_, fun k => mem_missingHeaders k hs, missingHeaders_pairwise hs, ?_⟩
  · simp only [extractFromPublic, hscan]
    rw [if_pos hmiss]
  · have h := scanPublic_found_headers hscan
    simpa [collectHeaders] using h

/-- Claim C3, witness: a public section recording only `intent` before the
declaration fails naming the other five keys, sorted. -/
theorem claim_C3_witness :
    extractFromPublic ["///intent: a".data, "pub skill Greet".data] =
      .error "missing required doc headers: effects, ensures, errors, inputs, requires" :=
  (claim_C3 ["///intent: a".data, "pub skill Greet".data]
    ["intent".data] 1 "Greet".data rfl (by decide)).1

/-- Claim C4: when the scan reaches a declaration line whose skill name
does not match the PascalCase pattern, `extract_program`'s public-block
validation reports the PascalCase error — even when required doc headers
are also missing — because the name check runs before the missing-headers
check. -/
theorem claim_C4 (pre : List Line) (l : Line) (rest : List Line)
    (hpre : ∀ p ∈ pre, pyStartsWith (pyStrip p) "pub skill".data = false)
    (hdecl : pyStartsWith (pyStrip l) "pub skill".data = true)
    (hname : searchPubSkill (pyStrip l) = none)
    (hmiss : ¬ missingHeaders (collectHeaders pre) = []) :
    extractFromPublic (pre ++ l :: rest) =
      .error "exported skill name must be PascalCase" := by
  have hscan : scanPublic (pre ++ l :: rest) [] 0 =
      .error "exported skill name must be PascalCase" := by
    rw [scanPublic_append_no_decl pre hpre (l :: rest) [] 0]
    simp only [scanPublic]
    rw [if_neg (by simp [pubskill_not_doccomment hdecl]), if_pos hdecl, hname]
  simp only [extractFromPublic, hscan]

/-- Claim C4, witness: a lone malformed declaration line (all six headers
missing) is reported with the PascalCase error, not the headers error. -/
theorem claim_C4_witness :
    extractFromPublic ["pub skill greet".data] =
      .error "exported skill name must be PascalCase" :=
  claim_C4 [] "pub skill greet".data [] (by simp) (by decide) (by decide) (by decide)

/-- Claim C5: a steps-block line starting with `do console.println` whose
parenthesized argument trims to anything other than a double-quoted string
literal makes extraction fail with the string-literals-only error (after any
prefix of blank lines and well-formed print statements). -/
theorem claim_C5 (pre : List Line) (line : Line) (rest : List Line)
    (inner : List Char)
    (hpre : ∀ l ∈ pre, stepOk l)
    (hp : pyStartsWith (pyStrip line) "do console.println".data = true)
    (harg : findParenArg (pyStrip line) = some inner)
    (hq : ¬ ((pyStrip inner).head? = some '"' ∧ (pyStrip inner).getLast? = some '"')) :
    stepLoop (pre ++ line :: rest) =
      .error "console.println only supports string literals in POC" := by
  obtain ⟨lits, hlits⟩ := stepLoop_append_ok pre hpre (line :: rest)
  have hne : ¬ pyStrip line = [] := ne_nil_of_pyStartsWith hp
  have hhead : stepLoop (line :: rest) =
      .error "console.println only supports string literals in POC" := by
    simp only [stepLoop, hne, if_false, hp, if_true, harg]
    rw [if_neg hq]
  rw [hlits, hhead]
  rfl

/-- Claim C5, witness: a bare-identifier argument fails extraction with the
string-literals-only error. -/
theorem claim_C5_witness :
    stepLoop ["do console.println(name)".data] =
      .error "console.println only supports string literals in POC" :=
  claim_C5 [] "do console.println(name)".data [] "name".data (by simp)
    (by decide) (by decide) (by decide)

/-- Claim C6: the first line of the steps block whose stripped form starts
with `return` terminates extraction: the lines after it are never inspected
(the loop's result does not depend on them), and a full document whose
post-return lines are invalid statements still extracts successfully. -/
theorem claim_C6 :
    (∀ (ret : Line), pyStartsWith (pyStrip ret) "return".data = true →
      ∀ (pre p q : List Line), stepLoop (pre ++ ret :: p) = stepLoop (pre ++ ret :: q)) ∧
    extract_program ("public:\n///intent: a\n///inputs: a\n///errors: a\n///effects: a\n///requires: a\n///ensures: a\npub skill Greet\nsteps:\n  do console.println(\"hello\")\n  return\n  do console.println(unquoted)\n  bogus statement\nprivate:\n").data =
      .ok ⟨"Greet".data, ["hello".data]⟩ :=
  ⟨fun ret h => stepLoop_return_trunc ret h, rfl⟩

/-- Claim C6, witness: dropping the lines after the `return` line does not
change the loop's result. -/
theorem claim_C6_witness :
    stepLoop ["do console.println(\"a\")".data, " return 0".data, "bogus".data] =
      stepLoop ["do console.println(\"a\")".data, " return 0".data] :=
  claim_C6.1 " return 0".data (by decide)
    ["do console.println(\"a\")".data] ["bogus".data] []

/-- Claim C7: every successfully extracted `SkillProgram` has a non-empty
`lines_to_print` sequence; an empty result of the steps loop is turned into
the at-least-one-println error instead of a program. -/
theorem claim_C7 (text : List Char) (prog : SkillProgram)
    (h : extract_program text = .ok prog) : ¬ prog.lines_to_print = [] := by
  unfold extract_program extractFromPublic at h
  repeat' split at h
  all_goals try (exfalso; revert h; simp; done)
  obtain rfl := Except.ok.inj h
  rename_i hne hloop
  exact hne

/-- Claim C7, witness: the extracted program of a well-formed two-print
document has a non-empty print sequence. -/
theorem claim_C7_witness :
    ¬ (SkillProgram.mk "Greet".data ["hello".data, "world".data]).lines_to_print = [] :=
  claim_C7 ("public:\n  ///intent: i\n  ///inputs: i\n  ///errors: e\n  ///effects: e\n  ///requires: r\n  ///ensures: e\n  pub skill Greet\n  steps:\n    do console.println(\"hello\")\n    do console.println(\"world\")\n    return\nprivate:\n").data
    (SkillProgram.mk "Greet".data ["hello".data, "world".data]) rfl

/-- Claim C8: `generate_c` emits exactly one `puts` call per print literal,
in the program's order, each literal transformed only by the
backslash-then-quote escaping; reading every emitted argument back as a C
string literal recovers the original literals exactly, so the modelled run
writes one line per literal, in source order. -/
theorem claim_C8 (prog : SkillProgram) :
    generate_c prog =
      cHeader ++ joinNl (prog.lines_to_print.map (fun l => putsCall (escapeC l))) ++
        cFooter ∧
    (∀ l : List Char, unescapeC (escapeC l) = l) ∧
    modelRunC prog = prog.lines_to_print ∧
    (modelRunC prog).length = prog.lines_to_print.length := by
  have hrun : modelRunC prog = prog.lines_to_print := by
    unfold modelRunC
    rw [List.map_map, show unescapeC ∘ escapeC = id from funext unescapeC_escapeC,
      List.map_id]
  refine ⟨?_, unescapeC_escapeC, hrun, by rw [hrun]⟩
  show cHeader ++ joinNl ((prog.lines_to_print.map escapeC).map putsCall) ++ cFooter =
    cHeader ++ joinNl (prog.lines_to_print.map (fun l => putsCall (escapeC l))) ++ cFooter
  rw [List.map_map]
  rfl

/-- Claim C9: a declaration line made of `pub skill`, whitespace, an
uppercase-led alphanumeric run and arbitrary trailing text is accepted, and
only the maximal alphanumeric run is recorded as the skill name; a concrete
document with `pub skill Greet 123!` extracts with name `Greet`. -/
theorem claim_C9 (ws : List Char) (c : Char) (cs rest : List Char)
    (hws : ¬ ws = []) (hwsSp : ∀ w ∈ ws, pyIsSpace w = true)
    (hc : isUpperAscii c = true)
    (hmax : (cs ++ rest).takeWhile isAlnumAscii = cs) :
    searchPubSkill ("pub skill".data ++ (ws ++ c :: (cs ++ rest))) = some (c :: cs) ∧
    extractFromPublic ["///intent: a".data, "///inputs: a".data, "///errors: a".data,
        "///effects: a".data, "///requires: a".data, "///ensures: a".data,
        "pub skill Greet 123!".data, "steps:".data,
        "do console.println(\"hi\")".data] =
      .ok ⟨"Greet".data, ["hi".data]⟩ := by
  constructor
  · have hcns : pyIsSpace c = false := upper_not_space hc
    obtain ⟨htake, hdrop⟩ := takeWhile_frontier ws c (cs ++ rest) hwsSp hcns
    have hmatch : matchPubSkillAt ("pub skill".data ++ (ws ++ c :: (cs ++ rest))) =
        some (c :: cs) := by
      unfold matchPubSkillAt
      rw [dropPrefixOpt_append]
      simp only [htake, hdrop]
      rw [if_neg hws, if_pos hc, hmax]
    rw [show ("pub skill".data ++ (ws ++ c :: (cs ++ rest)) : List Char) =
      'p' :: ("ub skill".data ++ (ws ++ c :: (cs ++ rest))) from rfl] at hmatch ⊢
    rw [searchPubSkill, hmatch]
  · rfl

/-- Claim C9, witness: `pub skill Greet 123!` is matched with skill name
`Greet`, the trailing ` 123!` silently ignored. -/
theorem claim_C9_witness :
    searchPubSkill "pub skill Greet 123!".data = some "Greet".data :=
  (claim_C9 [' '] 'G' "reet".data " 123!".data (by decide) (by decide)
    (by decide) (by decide)).1

/-- Claim C10: an argument that trims to the single character `"` passes
both quote checks on that one character and contributes the empty string as
a print literal, so a `do console.println(")` line is accepted and prints
the empty string. -/
theorem claim_C10 :
    pyStrip ['"'] = ['"'] ∧
    (['"'] : List Char).head? = some '"' ∧
    (['"'] : List Char).getLast? = some '"' ∧
    stripEnds ['"'] = [] ∧
    findParenArg (pyStrip "do console.println(\")".data) = some ['"'] ∧
    stepLoop ["do console.println(\")".data] = .ok [[]] :=
  ⟨rfl, rfl, rfl, rfl, rfl, rfl⟩

end Skillc

/-!
Concrete evaluations of the model, cross-checked against hand-traced
behavior of the Python source (and of `re`/`str` semantics).
-/
example : Skillc.searchPubSkill "pub skill Greet 123!".data = some "Greet".data := by decide
example : Skillc.searchPubSkill "pub skillx pub skill Foo".data = some "Foo".data := by decide
example : Skillc.searchPubSkill "pub skill greet".data = none := by decide
example : Skillc.searchPubSkill "pub skill!".data = none := by decide
example : Skillc.lineHeaderKey "  /// requires : nothing".data = some "requires".data := by decide
example : Skillc.lineHeaderKey "///bogus: x".data = none := by decide
example : Skillc.lineHeaderKey "///intent no colon".data = none := by decide
example : Skillc.missingHeaders ["intent".data, "errors".data] =
    ["effects".data, "ensures".data, "inputs".data, "requires".data] := by decide
example : Skillc.joinKeys ["effects".data, "ensures".data] = "effects, ensures" := by decide
example : Skillc.findParenArg "do console.println(\"a\") )".data = some "\"a\") ".data := rfl
example : Skillc.findParenArg "do console.println(\")".data = some "\"".data := rfl
example : Skillc.findParenArg "f(x) (y)".data = some "x) (y".data := rfl
example : Skillc.findParenArg "f(\"hi\") x".data = none := rfl
example : Skillc.stepLoop ["  do console.println(\"hello\")".data,
    "  return".data, "  garbage".data] = .ok ["hello".data] := rfl
example : Skillc.stepLoop ["  do console.println(name)".data] =
    .error "console.println only supports string literals in POC" := rfl
example : Skillc.stepLoop ["do console.println(\")".data] = .ok [[]] := rfl
example : Skillc.extract_program ("public:\n  ///intent: i\n  ///inputs: i\n  ///errors: e\n  ///effects: e\n  ///requires: r\n  ///ensures: e\n  pub skill Greet\n  steps:\n    do console.println(\"hello\")\n    do console.println(\"world\")\n    return\nprivate:\n").data =
    .ok ⟨"Greet".data, ["hello".data, "world".data]⟩ := rfl
example : Skillc.extract_program ("public:\n  ///intent: i\n  pub skill Greet\n  steps:\n    do console.println(\"hello\")\nprivate:\n").data =
    .error "missing required doc headers: effects, ensures, errors, inputs, requires" := rfl
example : Skillc.extract_program ("public:\n  pub skill greet\nprivate:\n").data =
    .error "exported skill name must be PascalCase" := rfl
example : Skillc.generate_c ⟨"G".data, ["a\\b\"c".data]⟩ =
    "#include <stdio.h>\n\nint main(void) \x7b\n    puts(\"a\\\\b\\\"c\");\n    return 0;\n\x7d\n".data := rfl
example : Skillc.modelRunC ⟨"G".data, ["a\\b\"c".data]⟩ = ["a\\b\"c".data] := rfl
example : Skillc.pyStrip "  ab c  ".data = "ab c".data := by decide
example : Skillc.pySplitlines "a\nb\n".data = ["a".data, "b".data] := by decide
example : Skillc.pySplitlines "".data = [] := by decide
example : Skillc.pySplitlines "\n".data = [[]] := by decide
example : Skillc.pyStartsWith "pub skill X".data "pub skill".data = true := by decide
example : Skillc.split_sections "public:\npublic:\nprivate:\n".data =
    .error "top-level sections must begin with public: then private:" := rfl
example : Skillc.split_sections "".data =
    .error "top-level sections must begin with public: then private:" := rfl
example : Skillc.split_sections "public:\nprivate:\npublic:\n".data =
    .error "duplicate top-level sections are not allowed" := rfl
example : Skillc.split_sections "public:\n x\nprivate:\n".data =
    .ok [("public".data, [" x".data]), ("private".data, [])] := rfl
example : Skillc.split_sections "junk\npublic:\nprivate:\n".data =
    .error "declarations outside of public/private/tests sections" := rfl
